import Mathlib

set_option autoImplicit false

/-!
Verification of the DVHA-MLCA core (mlca/mlc_analyzer.py, mlca/options.py,
mlca/utilities.py) against its natural-language specification.

The embedding uses rationals for the plan's floating-point scalars and plain
lists for the per-control-point arrays.  Division is embedded as a partial
operation (`divOpt`) so that an unguarded division by zero is visible as an
undefined (`none`) entry rather than silently becoming a number.  Each Python
class is represented by a structure holding exactly the data its methods read;
values produced by the external geometry library (shapely areas and the
aperture handed to `get_xy_path_lengths`) appear as input fields, since the
spec treats 2-D polygon algebra as an external capability.
-/

/-- Options from options.py (`DEFAULT_OPTIONS` keys). -/
structure Options where
  max_field_size_x : ℚ
  max_field_size_y : ℚ
  complexity_weight_x : ℚ
  complexity_weight_y : ℚ
deriving DecidableEq

/-- Defaults from options.py. -/
def DEFAULT_OPTIONS : Options :=
  { max_field_size_x := 400
    max_field_size_y := 400
    complexity_weight_x := 1
    complexity_weight_y := 1 }

/-- options.py: BEAM_MU_TOLERANCE = 0.001 -/
def BEAM_MU_TOLERANCE : ℚ := 1 / 1000

/-- options.py: CONTROL_POINT_MU_TOLERANCE = 0.00001 -/
def CONTROL_POINT_MU_TOLERANCE : ℚ := 1 / 100000

/-- options.py: CONTROL_POINT_POS_TOLERANCE = 0.0001 -/
def CONTROL_POINT_POS_TOLERANCE : ℚ := 1 / 10000

/-- Consecutive differences, as computed by `np.diff` (empty and singleton
inputs give the empty list). -/
def npDiff : List ℚ → List ℚ
  | [] => []
  | [_] => []
  | a :: b :: t => (b - a) :: npDiff (b :: t)

/-- Shapely-like geometry values as classified by
`utilities.get_xy_path_lengths`: a polygon is its exterior ring (the closed
coordinate sequence that `shapely_object.exterior.xy` reports), a
multi-polygon is a list of polygon rings, a geometry collection holds
arbitrary members, and `other` stands for any non-polygon geometry
(points, line strings, ...). -/
inductive Geometry where
  | polygon (ext : List (ℚ × ℚ))
  | multiPolygon (shapes : List (List (ℚ × ℚ)))
  | geometryCollection (geoms : List Geometry)
  | other

/-- Componentwise sum of two path-length pairs (`np.add` on length-2 arrays). -/
def addPath (p q : ℚ × ℚ) : ℚ × ℚ := (p.1 + q.1, p.2 + q.2)

/-- The `Polygon` branch of `get_xy_path_lengths`: sums of |Δx| and |Δy| over
consecutive exterior-ring vertices. -/
def polygonPathLengths (ext : List (ℚ × ℚ)) : ℚ × ℚ :=
  (((npDiff (ext.map Prod.fst)).map abs).sum,
   ((npDiff (ext.map Prod.snd)).map abs).sum)

/-- Embeds `utilities.get_xy_path_lengths`.  The Python function recurses, but
the `GeometryCollection` branch only recurses into members whose type is
`MultiPolygon` or `Polygon` (a nested collection or any other geometry leaves
`path` unchanged), and the `MultiPolygon` branch only recurses into its
`Polygon` members; that one-level recursion is inlined here, which gives the
same value on every input. -/
def get_xy_path_lengths : Geometry → ℚ × ℚ
  | Geometry.polygon ext => polygonPathLengths ext
  | Geometry.multiPolygon shapes =>
      shapes.foldl (fun path s => addPath path (polygonPathLengths s)) (0, 0)
  | Geometry.geometryCollection geoms =>
      geoms.foldl
        (fun path g =>
          match g with
          | Geometry.polygon ext => addPath path (polygonPathLengths ext)
          | Geometry.multiPolygon shapes =>
              addPath path
                (shapes.foldl (fun p s => addPath p (polygonPathLengths s)) (0, 0))
          | _ => path)
        (0, 0)
  | Geometry.other => (0, 0)

/-- Closed exterior ring of an axis-aligned rectangle with corner `(x, y)`,
width `w` and height `h` (shapely rings repeat the first vertex at the end). -/
def rectRing (x y w h : ℚ) : List (ℚ × ℚ) :=
  [(x, y), (x + w, y), (x + w, y + h), (x, y + h), (x, y)]

/-- Jaw rectangle as returned by `ControlPoint.jaws` (a dict with keys
x_min, x_max, y_min, y_max). -/
structure Jaws where
  x_min : ℚ
  x_max : ℚ
  y_min : ℚ
  y_max : ℚ
deriving DecidableEq

/-- One control point of a beam.  `cum_mu` is CumulativeMetersetWeight
(300A,0134); `asymx`/`asymy` are the optional asymmetric jaw position pairs
set by `_set_leaf_jaw_type`; `mlcA`/`mlcB` are the two MLC banks (the halves
of LeafJawPositions); the three angles are the optional per-control-point
angle tags.  `area`, `path_x` and `path_y` are the outputs of the external
shapely geometry on this control point's aperture (`aperture.area` and
`get_xy_path_lengths(aperture)`), which the spec treats as an external
polygon-algebra capability. -/
structure ControlPoint where
  cum_mu : ℚ
  asymx : Option (ℚ × ℚ)
  asymy : Option (ℚ × ℚ)
  mlcA : List ℚ
  mlcB : List ℚ
  gantryAngle : Option ℚ
  collimatorAngle : Option ℚ
  patientSupportAngle : Option ℚ
  area : ℚ
  path_x : ℚ
  path_y : ℚ
deriving DecidableEq

/-- Values used for one jaw axis: the recorded asymmetric pair if present,
otherwise the default `[-half, half]` (`getattr(self, "asym%s" % dim,
[-half, half])`). -/
def jawAxis (half : ℚ) : Option (ℚ × ℚ) → ℚ × ℚ
  | none => (-half, half)
  | some v => v

/-- Embeds the `ControlPoint.jaws` property: per axis, min and max of the
recorded pair, with the halved maximum field size as the default. -/
def ControlPoint.jaws (opts : Options) (cp : ControlPoint) : Jaws :=
  let vx := jawAxis (opts.max_field_size_x / 2) cp.asymx
  let vy := jawAxis (opts.max_field_size_y / 2) cp.asymy
  { x_min := min vx.1 vx.2
    x_max := max vx.1 vx.2
    y_min := min vy.1 vy.2
    y_max := max vy.1 vy.2 }

/-- Embeds `ControlPoint.__eq__`.  The method returns False when the raw
cumulative meterset weights differ by more than CONTROL_POINT_MU_TOLERANCE;
its loop over both MLC banks compares leaf positions against
CONTROL_POINT_POS_TOLERANCE but only executes `print(abs(...))` on a
mismatch, so after the loop it returns True regardless of the positions.
`cpPosMismatches` below captures exactly the printed differences. -/
def cpEq (a b : ControlPoint) : Bool :=
  if |a.cum_mu - b.cum_mu| > CONTROL_POINT_MU_TOLERANCE then false
  else true

/-- The leaf-position differences that `ControlPoint.__eq__` prints (one per
pair of corresponding positions beyond CONTROL_POINT_POS_TOLERANCE, bank A
first).  The Python loop indexes `other.mlc[side][i]` for each position of
`self.mlc[side]`; the zip models the runs where both banks have the same
length (otherwise Python raises IndexError). -/
def cpPosMismatches (a b : ControlPoint) : List ℚ :=
  ((a.mlcA.zip b.mlcA) ++ (a.mlcB.zip b.mlcB)).filterMap
    (fun p => if |p.1 - p.2| > CONTROL_POINT_POS_TOLERANCE then some |p.1 - p.2| else none)

/-- A beam: its control points, its meter set (the MU assigned by the
referencing fraction group) and its options (`get_options(kwargs)`, the
defaults when no overrides are passed). -/
structure Beam where
  control_point : List ControlPoint
  meter_set : ℚ
  options : Options
deriving DecidableEq

/-- Embeds the `Beam.cum_mu` property: cumulative MU per control point. -/
def Beam.cum_mu (b : Beam) : List ℚ :=
  b.control_point.map (fun cp => cp.cum_mu * b.meter_set)

/-- Embeds the `Beam.cp_mu` property:
`np.diff(np.array(self.cum_mu)).tolist() + [0]`. -/
def Beam.cp_mu (b : Beam) : List ℚ := npDiff b.cum_mu ++ [0]

/-- Embeds `Beam.perimeter_x` (x path length of each control point's
aperture). -/
def Beam.perimeter_x (b : Beam) : List ℚ := b.control_point.map ControlPoint.path_x

/-- Embeds `Beam.perimeter_y`. -/
def Beam.perimeter_y (b : Beam) : List ℚ := b.control_point.map ControlPoint.path_y

/-- Embeds `Beam.perimeter` (`ControlPoint.perimeter = perimeter_x +
perimeter_y` per control point). -/
def Beam.perimeter (b : Beam) : List ℚ :=
  b.control_point.map (fun cp => cp.path_x + cp.path_y)

/-- Embeds `Beam.area` (shapely area of each control point's aperture). -/
def Beam.area (b : Beam) : List ℚ := b.control_point.map ControlPoint.area

/-- Embeds the `Beam.jaws` property: a fresh list of each control point's
(freshly computed) jaw dict.  Every access rebuilds the list. -/
def Beam.jaws (b : Beam) : List Jaws :=
  b.control_point.map (ControlPoint.jaws b.options)

/-- Embeds `Beam.gantry_angle`: the control points that carry a GantryAngle
tag, in order (absent tags are skipped, so the list may be shorter than the
control-point list). -/
def Beam.gantry_angle (b : Beam) : List ℚ :=
  b.control_point.filterMap ControlPoint.gantryAngle

/-- Embeds `Beam.collimator_angle` (BeamLimitingDeviceAngle tags). -/
def Beam.collimator_angle (b : Beam) : List ℚ :=
  b.control_point.filterMap ControlPoint.collimatorAngle

/-- Embeds `Beam.couch_angle` (PatientSupportAngle tags). -/
def Beam.couch_angle (b : Beam) : List ℚ :=
  b.control_point.filterMap ControlPoint.patientSupportAngle

/-- Division as a partial operation: `none` when the denominator is zero.
`np.divide` has no real-number value there (it emits a warning and yields
inf or nan), so the embedding marks such entries as undefined. -/
def divOpt (a b : ℚ) : Option ℚ := if b = 0 then none else some (a / b)

/-- Result of `Beam.younge_complexity_scores`: either the scalar `0`
returned when `meter_set` is falsy or nonpositive, or the per-control-point
score array (entries `none` where the divisor `area[i]` is zero). -/
inductive YoungeResult where
  | scalarZero
  | scores (l : List (Option ℚ))
deriving DecidableEq

/-- One entry of the Younge score array:
`(np.add(c1*px, c2*py) * mu / area) / meter_set`. -/
def pointScore (c1 c2 ms px py mu ar : ℚ) : Option ℚ :=
  (divOpt ((c1 * px + c2 * py) * mu) ar).map (fun q => q / ms)

/-- Embeds `Beam.younge_complexity_scores`.  The guard
`if self.meter_set and self.meter_set > 0` is equivalent to `0 < meter_set`
(`0.0` is falsy); otherwise the method returns the plain scalar `0`.  The
numpy elementwise expression over the equal-length per-point arrays is the
zipWith below. -/
def Beam.younge_complexity_scores (b : Beam) : YoungeResult :=
  if 0 < b.meter_set then
    YoungeResult.scores
      (List.zipWith
        (fun pp ma =>
          pointScore b.options.complexity_weight_x b.options.complexity_weight_y
            b.meter_set pp.1 pp.2 ma.1 ma.2)
        (b.perimeter_x.zip b.perimeter_y) (b.cp_mu.zip b.area))
  else YoungeResult.scalarZero

/-- Embeds `Beam.__eq__`.  The MU check uses the signed difference
`self.meter_set - other.meter_set` (no absolute value); then each of selfs
control points is compared with `other.control_point[i]`.  The zip models
the runs where `other` has at least as many control points (otherwise
Python raises IndexError). -/
def beamEq (a b : Beam) : Bool :=
  if a.meter_set - b.meter_set > BEAM_MU_TOLERANCE then false
  else (a.control_point.zip b.control_point).all (fun p => cpEq p.1 p.2)

/-- Python list repetition `xs * n` (n concatenated copies of xs). -/
def listMul {α : Type} (xs : List α) : ℕ → List α
  | 0 => []
  | n + 1 => xs ++ listMul xs n

/-- The length-1 broadcast pass in `Beam.__init__`: a summary entry of
length exactly 1 becomes `entry * len(summary["cp"])`; every other entry is
left unchanged.  The numpy-valued entries (x_perim, y_perim, perim) have
length 1 only when there is exactly one control point, where numpy
scalar multiplication by 1 and list repetition coincide, so one list-level
definition is faithful for all entries. -/
def broadcast {α : Type} (n : ℕ) (xs : List α) : List α :=
  if xs.length = 1 then listMul xs n else xs

/-- The `Beam.summary` dict (one field per key, in source order). -/
structure Summary where
  cp : List ℕ
  cum_mu_frac : List ℚ
  cum_mu : List ℚ
  cp_mu : List ℚ
  gantry : List ℚ
  collimator : List ℚ
  couch : List ℚ
  jaw_x1 : List ℚ
  jaw_x2 : List ℚ
  jaw_y1 : List ℚ
  jaw_y2 : List ℚ
  area : List ℚ
  x_perim : List ℚ
  y_perim : List ℚ
  perim : List ℚ
  cmp_score : List (Option ℚ)
deriving DecidableEq

/-- The `.tolist()` call on the value of `younge_complexity_scores` in
`Beam.__init__`: defined on the numpy score array, but the scalar `0`
returned for a nonpositive meter set is a plain int without a `tolist`
attribute, so there the constructor raises AttributeError (modeled as
`none`). -/
def YoungeResult.tolist : YoungeResult → Option (List (Option ℚ))
  | YoungeResult.scalarZero => none
  | YoungeResult.scores l => some l

/-- The `Beam.summary` dict as it stands after the length-1 broadcast loop
and before the optional zero-MU filter.  `n = len(summary["cp"])` is the
control-point count and is unchanged by the loop (a length-1 cp list means
n = 1, and repetition by 1 is the identity).  `none` models the
AttributeError raised for beams with a nonpositive meter set. -/
def Beam.summaryPre (b : Beam) : Option Summary :=
  b.younge_complexity_scores.tolist.map (fun cmp =>
    let n := b.control_point.length
    { cp := broadcast n (List.range' 1 n)
      cum_mu_frac := broadcast n (b.control_point.map ControlPoint.cum_mu)
      cum_mu := broadcast n b.cum_mu
      cp_mu := broadcast n b.cp_mu
      gantry := broadcast n b.gantry_angle
      collimator := broadcast n b.collimator_angle
      couch := broadcast n b.couch_angle
      jaw_x1 := broadcast n (b.jaws.map Jaws.x_min)
      jaw_x2 := broadcast n (b.jaws.map Jaws.x_max)
      jaw_y1 := broadcast n (b.jaws.map Jaws.y_min)
      jaw_y2 := broadcast n (b.jaws.map Jaws.y_max)
      area := broadcast n b.area
      x_perim := broadcast n b.perimeter_x
      y_perim := broadcast n b.perimeter_y
      perim := broadcast n b.perimeter
      cmp_score := broadcast n cmp })

/-- Indices of the nonzero entries starting at offset k, embedding
`[i for i, value in enumerate(xs) if value != 0]` (with k = 0). -/
def nonZeroIndicesFrom (k : ℕ) : List ℚ → List ℕ
  | [] => []
  | v :: rest =>
      if v ≠ 0 then k :: nonZeroIndicesFrom (k + 1) rest
      else nonZeroIndicesFrom (k + 1) rest

/-- The `non_zero_indices` list of `Beam.__init__`. -/
def nonZeroIndices (xs : List ℚ) : List ℕ := nonZeroIndicesFrom 0 xs

/-- The selection `[xs[i] for i in idxs]`; all indices produced by
`nonZeroIndices` on an equal-length list are in range (out-of-range indices
would raise IndexError in Python). -/
def selectIdx {α : Type} (xs : List α) (idxs : List ℕ) : List α :=
  idxs.filterMap (fun i => xs.get? i)

/-- The zero-MU filter pass of `Beam.__init__`: every summary entry is
restricted to the indices where the (post-broadcast) cp_mu entry is
nonzero. -/
def filterSummary (s : Summary) : Summary :=
  let nz := nonZeroIndices s.cp_mu
  { cp := selectIdx s.cp nz
    cum_mu_frac := selectIdx s.cum_mu_frac nz
    cum_mu := selectIdx s.cum_mu nz
    cp_mu := selectIdx s.cp_mu nz
    gantry := selectIdx s.gantry nz
    collimator := selectIdx s.collimator nz
    couch := selectIdx s.couch nz
    jaw_x1 := selectIdx s.jaw_x1 nz
    jaw_x2 := selectIdx s.jaw_x2 nz
    jaw_y1 := selectIdx s.jaw_y1 nz
    jaw_y2 := selectIdx s.jaw_y2 nz
    area := selectIdx s.area nz
    x_perim := selectIdx s.x_perim nz
    y_perim := selectIdx s.y_perim nz
    perim := selectIdx s.perim nz
    cmp_score := selectIdx s.cmp_score nz }

/-- The `Beam.summary` dict as `Beam.__init__` leaves it: the broadcast pass
runs first, then (only when `ignore_zero_mu_cp` is set) the zero-MU filter. -/
def Beam.summaryFinal (ignore_zero_mu_cp : Bool) (b : Beam) : Option Summary :=
  b.summaryPre.map (fun s => if ignore_zero_mu_cp then filterSummary s else s)

/-- The comparison in `FxGroup.update_missing_jaws`: the jaw dict equals the
maximum-field-size rectangle of the fraction groups own options. -/
def isMaxFieldRect (opts : Options) (j : Jaws) : Bool :=
  decide (j.x_min = -(opts.max_field_size_x / 2)) &&
  decide (j.x_max = opts.max_field_size_x / 2) &&
  decide (j.y_min = -(opts.max_field_size_y / 2)) &&
  decide (j.y_max = opts.max_field_size_y / 2)

/-- One execution of the loop body statement `beam.jaws[j] = beam.jaws[0]` in
`FxGroup.update_missing_jaws`.  `Beam.jaws` is a property that builds a fresh
list of fresh dicts on every access, so the statement evaluates the property
twice, writes the head of the second fresh list into slot j of the first
fresh list, and binds neither list: the beam object itself is not changed.
The discarded temporary list is returned alongside the (unchanged) beam to
keep the assignment explicit.  (`headD` stands for `beam.jaws[0]`; an empty
beam would raise IndexError.) -/
def backfillAssign (b : Beam) (j : ℕ) : Beam × List Jaws :=
  (b, b.jaws.set j (b.jaws.headD { x_min := 0, x_max := 0, y_min := 0, y_max := 0 }))

/-- Embeds `FxGroup.update_missing_jaws`: for each beam, iterate over the
jaw list `beam.jaws` (computed once for the loop) and, where the entry
equals the maximum-field-size rectangle, execute
`beam.jaws[j] = beam.jaws[0]` via `backfillAssign`. -/
def update_missing_jaws (fx_opts : Options) (beams : List Beam) : List Beam :=
  beams.map (fun beam =>
    beam.jaws.enum.foldl
      (fun b jcp => if isMaxFieldRect fx_opts jcp.2 then (backfillAssign b jcp.1).1 else b)
      beam)

/-- The fraction-group data relevant to the jaw claims. -/
structure FxGroupModel where
  beam : List Beam

/-- The `FxGroup.__init__` steps relevant to the jaw claims: the matched
beams are built, then `update_missing_jaws` runs exactly once.  (`FxGroup`
is always constructed without option overrides, so its options are the
defaults; beam matching by beam number happens before this step and
`beams` is the matched list.) -/
def mkFxGroup (fx_opts : Options) (beams : List Beam) : FxGroupModel :=
  { beam := update_missing_jaws fx_opts beams }

/-- Spec-side characterization of the zero-MU filter: keep exactly the
entries of `xs` whose corresponding `mus` entry is nonzero. -/
def keepNonZero {α : Type} (xs : List α) (mus : List ℚ) : List α :=
  ((xs.zip mus).filter fun q => decide (q.2 ≠ 0)).map Prod.fst

/-- Control point literal with the given cumulative meterset weight and no
optional tags; used to build concrete evaluation inputs. -/
def mkCP (mu : ℚ) : ControlPoint :=
  { cum_mu := mu
    asymx := none
    asymy := none
    mlcA := []
    mlcB := []
    gantryAngle := none
    collimatorAngle := none
    patientSupportAngle := none
    area := 0
    path_x := 0
    path_y := 0 }

def cpC1a : ControlPoint := { mkCP 0 with asymx := some (-50, 50), asymy := some (-60, 60) }

def cpC1b : ControlPoint := mkCP 1

def beamC1 : Beam :=
  { control_point := [cpC1a, cpC1b], meter_set := 100, options := DEFAULT_OPTIONS }

def fxC1 : FxGroupModel := mkFxGroup DEFAULT_OPTIONS [beamC1]

def cpC2a : ControlPoint := { mkCP (1/2) with mlcA := [0], mlcB := [0] }

def cpC2b : ControlPoint := { mkCP (1/2) with mlcA := [1], mlcB := [1] }

def cpC3a : ControlPoint := { mkCP 0 with area := 0, path_x := 4, path_y := 4 }

def cpC3b : ControlPoint := { mkCP 1 with area := 10, path_x := 4, path_y := 4 }

def beamC3 : Beam :=
  { control_point := [cpC3a, cpC3b], meter_set := 1, options := DEFAULT_OPTIONS }

def cpC4 : ControlPoint := mkCP 1

def beamC4a : Beam :=
  { control_point := [cpC4], meter_set := 0, options := DEFAULT_OPTIONS }

def beamC4b : Beam :=
  { control_point := [cpC4], meter_set := 1, options := DEFAULT_OPTIONS }

def cpC5a : ControlPoint := { mkCP 0 with area := 10, path_x := 4, path_y := 4 }

def cpC5b : ControlPoint := { mkCP 1 with area := 5, path_x := 2, path_y := 2 }

def beamC5 : Beam :=
  { control_point := [cpC5a, cpC5b], meter_set := 2, options := DEFAULT_OPTIONS }

def beamC7 : Beam := { control_point := [], meter_set := 5, options := DEFAULT_OPTIONS }

def cpC7a : ControlPoint := mkCP 0

def cpC7b : ControlPoint := { mkCP (1/4) with area := 1 }

def cpC7c : ControlPoint := { mkCP 1 with area := 1 }

def beamC7w : Beam :=
  { control_point := [cpC7a, cpC7b, cpC7c], meter_set := 8, options := DEFAULT_OPTIONS }

def cpC9 : ControlPoint := { mkCP 0 with asymx := some (60, -60) }

def cpCSa : ControlPoint :=
  { mkCP 0 with gantryAngle := some 10, area := 1, path_x := 1, path_y := 1 }

def cpCSb : ControlPoint :=
  { mkCP (1/2) with area := 1, path_x := 1, path_y := 1 }

def beamCS : Beam :=
  { control_point := [cpCSa, cpCSb], meter_set := 2, options := DEFAULT_OPTIONS }

def summaryCS : Summary :=
  { cp := [1, 2]
    cum_mu_frac := [0, 1/2]
    cum_mu := [0, 1]
    cp_mu := [1, 0]
    gantry := [10, 10]
    collimator := []
    couch := []
    jaw_x1 := [-200, -200]
    jaw_x2 := [200, 200]
    jaw_y1 := [-200, -200]
    jaw_y2 := [200, 200]
    area := [1, 1]
    x_perim := [1, 1]
    y_perim := [1, 1]
    perim := [2, 2]
    cmp_score := [some 1, some 0] }

theorem listMul_singleton {α : Type} (v : α) : ∀ n : ℕ, listMul [v] n = List.replicate n v
  | 0 => rfl
  | n + 1 => by simp [listMul, listMul_singleton v n, List.replicate_succ]

theorem broadcast_eq_self {α : Type} {n : ℕ} {xs : List α} (h : xs.length = n) :
    broadcast n xs = xs := by
  unfold broadcast
  by_cases h1 : xs.length = 1
  · rw [if_pos h1, ← h, h1]
    simp [listMul]
  · rw [if_neg h1]

theorem npDiff_length : ∀ xs : List ℚ, (npDiff xs).length = xs.length - 1
  | [] => rfl
  | [_] => rfl
  | _ :: b :: t => by
      simp [npDiff, npDiff_length (b :: t)]

theorem npDiff_get? :
    ∀ (xs : List ℚ) (i : ℕ), i + 1 < xs.length →
      (npDiff xs).get? i = some (xs.getD (i + 1) 0 - xs.getD i 0)
  | [], _, h => by simp at h
  | [_], _, h => by simp at h
  | _ :: _ :: _, 0, _ => by simp [npDiff, List.getD]
  | a :: b :: t, i + 1, h => by
      have ih := npDiff_get? (b :: t) i (by simpa using h)
      simpa [npDiff, List.getD] using ih

theorem npDiff_sum :
    ∀ (a : ℚ) (xs : List ℚ),
      (npDiff (a :: xs)).sum = (a :: xs).getLast (List.cons_ne_nil a xs) - a
  | _, [] => by simp [npDiff]
  | a, b :: t => by
      rw [show npDiff (a :: b :: t) = (b - a) :: npDiff (b :: t) from rfl,
        List.sum_cons, npDiff_sum b t, List.getLast_cons (List.cons_ne_nil b t)]
      ring

theorem zip_all_iff {α β : Type} (p : α → β → Bool) :
    ∀ (xs : List α) (ys : List β),
      (((xs.zip ys).all fun q => p q.1 q.2) = true ↔
        ∀ (i : ℕ) (h1 : i < xs.length) (h2 : i < ys.length),
          p (xs.get ⟨i, h1⟩) (ys.get ⟨i, h2⟩) = true)
  | [], ys => by simp
  | x :: xs, [] => by simp
  | x :: xs, y :: ys => by
      simp only [List.zip_cons_cons, List.all_cons, Bool.and_eq_true, zip_all_iff p xs ys]
      constructor
      · rintro ⟨hp, hrest⟩ i h1 h2
        cases i with
        | zero => exact hp
        | succ i => exact hrest i (Nat.lt_of_succ_lt_succ h1) (Nat.lt_of_succ_lt_succ h2)
      · intro h
        exact ⟨h 0 (Nat.succ_pos _) (Nat.succ_pos _),
          fun i h1 h2 => h (i + 1) (Nat.succ_lt_succ h1) (Nat.succ_lt_succ h2)⟩

theorem selectIdx_from {α : Type} :
    ∀ (mus : List ℚ) (xs pre : List α), xs.length = mus.length →
      selectIdx (pre ++ xs) (nonZeroIndicesFrom pre.length mus) = keepNonZero xs mus
  | [], xs, _, h => by
      have hx : xs = [] := List.length_eq_zero.mp (by simpa using h)
      subst hx; rfl
  | m :: ms, xs, pre, h => by
      cases xs with
      | nil => simp at h
      | cons x t =>
        have hlen : t.length = ms.length := by simpa using h
        have hget : (pre ++ x :: t).get? pre.length = some x := by
          rw [List.get?_eq_getElem?, List.getElem?_append_right (Nat.le_refl _)]
          simp
        have hrec :
            selectIdx (pre ++ x :: t) (nonZeroIndicesFrom (pre.length + 1) ms) =
              keepNonZero t ms := by
          have := selectIdx_from ms t (pre ++ [x]) hlen
          simpa [List.append_assoc] using this
        by_cases hm : m = 0
        · rw [show nonZeroIndicesFrom pre.length (m :: ms) =
              nonZeroIndicesFrom (pre.length + 1) ms by simp [nonZeroIndicesFrom, hm]]
          rw [hrec]
          simp [keepNonZero, hm]
        · rw [show nonZeroIndicesFrom pre.length (m :: ms) =
              pre.length :: nonZeroIndicesFrom (pre.length + 1) ms by
                simp [nonZeroIndicesFrom, hm]]
          rw [selectIdx, List.filterMap_cons, hget]
          rw [show List.filterMap (fun i => (pre ++ x :: t).get? i)
              (nonZeroIndicesFrom (pre.length + 1) ms) =
              selectIdx (pre ++ x :: t) (nonZeroIndicesFrom (pre.length + 1) ms) from rfl]
          rw [hrec]
          simp [keepNonZero, hm]

theorem selectIdx_nonZero {α : Type} (mus : List ℚ) (xs : List α)
    (h : xs.length = mus.length) :
    selectIdx xs (nonZeroIndices mus) = keepNonZero xs mus := by
  have := selectIdx_from mus xs [] h
  simpa [nonZeroIndices] using this

theorem backfill_loop_id (fx_opts : Options) :
    ∀ (l : List (ℕ × Jaws)) (b : Beam),
      l.foldl
        (fun b jcp => if isMaxFieldRect fx_opts jcp.2 then (backfillAssign b jcp.1).1 else b)
        b = b
  | [], _ => rfl
  | x :: l, b => by
      rw [List.foldl_cons,
        show (if isMaxFieldRect fx_opts x.2 then (backfillAssign b x.1).1 else b) = b by
          split <;> rfl]
      exact backfill_loop_id fx_opts l b

theorem update_missing_jaws_eq (fx_opts : Options) :
    ∀ beams : List Beam, update_missing_jaws fx_opts beams = beams
  | [] => rfl
  | b :: bs => by
      have ih := update_missing_jaws_eq fx_opts bs
      simp only [update_missing_jaws, List.map_cons] at ih ⊢
      rw [backfill_loop_id fx_opts, ih]

example : get_xy_path_lengths (Geometry.polygon (rectRing 0 0 1 2)) = (2, 4) := by
  norm_num [get_xy_path_lengths, polygonPathLengths, rectRing, npDiff, addPath]

example :
    get_xy_path_lengths
      (Geometry.geometryCollection
        [Geometry.multiPolygon [rectRing 0 0 1 2, rectRing 0 0 1 2],
         Geometry.polygon (rectRing 0 0 1 2)]) = (6, 12) := by
  norm_num [get_xy_path_lengths, polygonPathLengths, rectRing, npDiff, addPath]

/-- C1: the claim states that after fraction-group construction a control
point whose jaw rectangle equals the maximum-field-size rectangle carries the
first control points jaw record.  Evaluating the code at a concrete group
shows it does not: `update_missing_jaws` writes into a temporary list built
by the `Beam.jaws` property, so construction leaves every beam unchanged and
the second control points jaws remain the max-field rectangle, different from
the first control points record. -/
theorem c1_jaw_backfill_has_no_effect :
    fxC1.beam = [beamC1] ∧
    beamC1.jaws =
      [{ x_min := -50, x_max := 50, y_min := -60, y_max := 60 },
       { x_min := -200, x_max := 200, y_min := -200, y_max := 200 }] ∧
    isMaxFieldRect DEFAULT_OPTIONS
      { x_min := -200, x_max := 200, y_min := -200, y_max := 200 } = true ∧
    ({ x_min := -200, x_max := 200, y_min := -200, y_max := 200 } : Jaws) ≠
      { x_min := -50, x_max := 50, y_min := -60, y_max := 60 } := by
  refine ⟨?_, ?_, ?_, ?_⟩
  · rw [show fxC1 = mkFxGroup DEFAULT_OPTIONS [beamC1] from rfl]
    rw [mkFxGroup, update_missing_jaws_eq]
  · norm_num [beamC1, Beam.jaws, cpC1a, cpC1b, mkCP, ControlPoint.jaws, jawAxis,
      DEFAULT_OPTIONS, min_def, max_def]
  · norm_num [isMaxFieldRect, DEFAULT_OPTIONS]
  · intro h
    have := congrArg Jaws.x_min h
    norm_num at this

/-- C2: the claim states control-point equality returns false when some leaf
position pair differs by more than CONTROL_POINT_POS_TOLERANCE.  Evaluating
`ControlPoint.__eq__` at two control points with equal cumulative MU whose
every leaf position differs by 1 (far beyond the 0.0001 tolerance) shows the
comparison nevertheless returns True; the mismatches are only printed. -/
theorem c2_cp_eq_ignores_position_mismatches :
    cpEq cpC2a cpC2b = true ∧
    cpPosMismatches cpC2a cpC2b = [1, 1] ∧
    CONTROL_POINT_POS_TOLERANCE < 1 := by
  refine ⟨?_, ?_, by norm_num [CONTROL_POINT_POS_TOLERANCE]⟩
  · norm_num [cpEq, cpC2a, cpC2b, mkCP, CONTROL_POINT_MU_TOLERANCE]
  · norm_num [cpPosMismatches, cpC2a, cpC2b, mkCP, CONTROL_POINT_POS_TOLERANCE,
      List.filterMap_cons]

/-- C3: the claim states the per-point complexity computation guards the
division by `area[i]`.  Evaluating `Beam.younge_complexity_scores` at a beam
with positive meter set whose first control point has zero area and nonzero
MU delta shows the division is performed unguarded: the first score entry is
undefined (numpy divide by zero yielding inf), not 0 and not a marker. -/
theorem c3_zero_area_division_unguarded :
    0 < beamC3.meter_set ∧
    beamC3.area = [0, 10] ∧
    beamC3.cp_mu = [1, 0] ∧
    beamC3.younge_complexity_scores = YoungeResult.scores [none, some 0] := by
  refine ⟨by norm_num [beamC3], ?_, ?_, ?_⟩
  · norm_num [beamC3, Beam.area, cpC3a, cpC3b, mkCP]
  · norm_num [beamC3, Beam.cp_mu, Beam.cum_mu, npDiff, cpC3a, cpC3b, mkCP]
  · norm_num [beamC3, Beam.younge_complexity_scores, Beam.perimeter_x, Beam.perimeter_y,
      Beam.cp_mu, Beam.cum_mu, Beam.area, npDiff, cpC3a, cpC3b, mkCP, DEFAULT_OPTIONS,
      pointScore, divOpt, List.zipWith]

/-- C4 counterexample: two beams whose meter sets differ by 1, far beyond
BEAM_MU_TOLERANCE, with identical control points.  The claim (equality iff
total MU within tolerance and control points pairwise equal) requires both
comparisons to return false; the code returns True for `a == b` because it
tests only the signed difference `a.meter_set - b.meter_set`, and False for
`b == a` — so the MU criterion is not symmetric and the claimed equivalence
fails at `a == b`. -/
theorem c4_beam_eq_asymmetry_counterexample :
    beamEq beamC4a beamC4b = true ∧
    beamEq beamC4b beamC4a = false ∧
    BEAM_MU_TOLERANCE < |beamC4a.meter_set - beamC4b.meter_set| := by
  refine ⟨?_, ?_, by norm_num [beamC4a, beamC4b, BEAM_MU_TOLERANCE]⟩
  · norm_num [beamEq, beamC4a, beamC4b, BEAM_MU_TOLERANCE, cpEq, cpC4, mkCP,
      CONTROL_POINT_MU_TOLERANCE, List.zip, List.zipWith, List.all]
  · norm_num [beamEq, beamC4a, beamC4b, BEAM_MU_TOLERANCE]

/-- C4 amended: beam equality tests the signed MU difference (it returns
false only when the left meter set exceeds the right one by more than
BEAM_MU_TOLERANCE, an asymmetric criterion) and otherwise holds iff every
control point of the left beam compares equal to the corresponding control
point of the right beam under the control-point comparison. -/
theorem c4_beam_eq_amended (a b : Beam)
    (hlen : a.control_point.length ≤ b.control_point.length) :
    beamEq a b = true ↔
      (a.meter_set - b.meter_set ≤ BEAM_MU_TOLERANCE ∧
        ∀ (i : ℕ) (hi : i < a.control_point.length),
          cpEq (a.control_point.get ⟨i, hi⟩)
            (b.control_point.get ⟨i, Nat.lt_of_lt_of_le hi hlen⟩) = true) := by
  unfold beamEq
  by_cases hm : a.meter_set - b.meter_set > BEAM_MU_TOLERANCE
  · rw [if_pos hm]
    simp only [Bool.false_eq_true, false_iff]
    intro hcon
    exact absurd hcon.1 (not_le.mpr hm)
  · rw [if_neg hm]
    rw [zip_all_iff cpEq a.control_point b.control_point]
    constructor
    · intro h
      exact ⟨not_lt.mp hm, fun i hi => h i hi (Nat.lt_of_lt_of_le hi hlen)⟩
    · intro h i h1 h2
      have := h.2 i h1
      convert this using 2

/-- C4 witness: the amended equivalence applied to a concrete pair of equal
beams. -/
theorem c4_beam_eq_amended_witness : beamEq beamC4b beamC4b = true :=
  (c4_beam_eq_amended beamC4b beamC4b (Nat.le_refl _)).mpr
    ⟨by norm_num [beamC4b, BEAM_MU_TOLERANCE],
     fun i hi => by
      have h0 : i = 0 := Nat.lt_one_iff.mp (by simpa [beamC4b] using hi)
      subst h0
      norm_num [beamC4b, cpEq, cpC4, mkCP, CONTROL_POINT_MU_TOLERANCE]⟩

theorem cp_mu_length (b : Beam) (h : b.control_point ≠ []) :
    b.cp_mu.length = b.control_point.length := by
  have h0 : b.control_point.length ≠ 0 := by
    simpa [List.length_eq_zero] using h
  simp only [Beam.cp_mu, List.length_append, npDiff_length, Beam.cum_mu,
    List.length_map, List.length_singleton]
  omega

/-- C5: for a beam with positive meter set, each per-point Younge score at an
index with nonzero area equals
`((Cx * perimeter_x + Cy * perimeter_y) * mu_delta / area) / meter_set`; a
beam with nonpositive meter set gets the scalar score 0; and the default
complexity weights are 1. -/
theorem c5_younge_formula :
    (∀ (b : Beam) (i : ℕ), 0 < b.meter_set →
      ∀ hi : i < b.control_point.length,
      (b.control_point.get ⟨i, hi⟩).area ≠ 0 →
      ∃ l, b.younge_complexity_scores = YoungeResult.scores l ∧
        l.get? i = some (some
          ((((b.options.complexity_weight_x * (b.control_point.get ⟨i, hi⟩).path_x +
              b.options.complexity_weight_y * (b.control_point.get ⟨i, hi⟩).path_y) *
             b.cp_mu.getD i 0) / (b.control_point.get ⟨i, hi⟩).area) / b.meter_set))) ∧
    (∀ b : Beam, b.meter_set ≤ 0 → b.younge_complexity_scores = YoungeResult.scalarZero) ∧
    DEFAULT_OPTIONS.complexity_weight_x = 1 ∧
    DEFAULT_OPTIONS.complexity_weight_y = 1 := by
  refine ⟨?_, ?_, rfl, rfl⟩
  · intro b i hms hi ha
    refine ⟨_, by rw [Beam.younge_complexity_scores, if_pos hms], ?_⟩
    have hcps : b.control_point ≠ [] := by
      intro hnil
      rw [hnil] at hi
      exact absurd hi (by simp)
    have hmu : i < b.cp_mu.length := by
      rw [cp_mu_length b hcps]
      exact hi
    have h1 : b.perimeter_x.get? i = some (b.control_point.get ⟨i, hi⟩).path_x := by
      rw [Beam.perimeter_x, List.get?_map, List.get?_eq_get hi]
      rfl
    have h2 : b.perimeter_y.get? i = some (b.control_point.get ⟨i, hi⟩).path_y := by
      rw [Beam.perimeter_y, List.get?_map, List.get?_eq_get hi]
      rfl
    have h4 : b.area.get? i = some (b.control_point.get ⟨i, hi⟩).area := by
      rw [Beam.area, List.get?_map, List.get?_eq_get hi]
      rfl
    have h3 : b.cp_mu.get? i = some (b.cp_mu.getD i 0) := by
      rw [List.getD_eq_get?, List.get?_eq_get hmu]
      rfl
    have hz1 : (b.perimeter_x.zip b.perimeter_y).get? i =
        some ((b.control_point.get ⟨i, hi⟩).path_x, (b.control_point.get ⟨i, hi⟩).path_y) :=
      (List.get?_zip_eq_some _ _ _ _).mpr ⟨h1, h2⟩
    have hz2 : (b.cp_mu.zip b.area).get? i =
        some (b.cp_mu.getD i 0, (b.control_point.get ⟨i, hi⟩).area) :=
      (List.get?_zip_eq_some _ _ _ _).mpr ⟨h3, h4⟩
    rw [List.get?_zipWith', hz1, hz2]
    simp [pointScore, divOpt, ha]
    exact ⟨_, ⟨ha, rfl⟩, rfl⟩
  · intro b hle
    rw [Beam.younge_complexity_scores, if_neg (not_lt.mpr hle)]

/-- C5 witness: the score formula instantiated at a concrete two-point beam,
with the resulting value evaluated: ((1*4 + 1*4) * 2 / 10) / 2 = 4/5. -/
theorem c5_younge_formula_witness :
    0 < beamC5.meter_set ∧
    (∃ l, beamC5.younge_complexity_scores = YoungeResult.scores l ∧
      l.get? 0 = some (some (4 / 5))) := by
  have hms : 0 < beamC5.meter_set := by norm_num [beamC5]
  have hi : 0 < beamC5.control_point.length := by norm_num [beamC5]
  have ha : (beamC5.control_point.get ⟨0, hi⟩).area ≠ 0 := by
    norm_num [beamC5, cpC5a, mkCP, List.get]
  obtain ⟨l, hl, hget⟩ := c5_younge_formula.1 beamC5 0 hms hi ha
  refine ⟨hms, l, hl, ?_⟩
  rw [hget]
  norm_num [beamC5, cpC5a, cpC5b, mkCP, DEFAULT_OPTIONS, Beam.cp_mu, Beam.cum_mu,
    npDiff, List.get, List.getD]

/-- C6: the perimeter decomposition returns the sums of |Δx| and |Δy| over
consecutive exterior-ring vertices; an axis-aligned rectangle of width w and
height h yields (2w, 2h); a MultiPolygon of two polygons with equal
single-polygon decompositions yields exactly double the single-polygon
decomposition; and a non-polygon member of a heterogeneous collection
contributes (0, 0). -/
theorem c6_path_length_decomposition :
    (∀ x y w h : ℚ, 0 ≤ w → 0 ≤ h →
      get_xy_path_lengths (Geometry.polygon (rectRing x y w h)) = (2 * w, 2 * h)) ∧
    (∀ s t : List (ℚ × ℚ),
      get_xy_path_lengths (Geometry.polygon t) = get_xy_path_lengths (Geometry.polygon s) →
      get_xy_path_lengths (Geometry.multiPolygon [s, t]) =
        (2 * (get_xy_path_lengths (Geometry.polygon s)).1,
         2 * (get_xy_path_lengths (Geometry.polygon s)).2)) ∧
    (∀ gs : List Geometry,
      get_xy_path_lengths (Geometry.geometryCollection (Geometry.other :: gs)) =
        get_xy_path_lengths (Geometry.geometryCollection gs)) ∧
    (∀ ext : List (ℚ × ℚ),
      get_xy_path_lengths (Geometry.polygon ext) =
        (((npDiff (ext.map Prod.fst)).map abs).sum,
         ((npDiff (ext.map Prod.snd)).map abs).sum)) := by
  refine ⟨?_, ?_, ?_, fun ext => rfl⟩
  · intro x y w h hw hh
    show polygonPathLengths (rectRing x y w h) = (2 * w, 2 * h)
    rw [polygonPathLengths, rectRing]
    simp only [List.map_cons, List.map_nil]
    rw [show npDiff [x, x + w, x + w, x, x] =
        [x + w - x, x + w - (x + w), x - (x + w), x - x] from rfl]
    rw [show npDiff [y, y, y + h, y + h, y] =
        [y - y, y + h - y, y + h - (y + h), y - (y + h)] from rfl]
    have ex1 : x + w - x = w := by ring
    have ex2 : x - (x + w) = -w := by ring
    have ey1 : y + h - y = h := by ring
    have ey2 : y - (y + h) = -h := by ring
    rw [ex1, ex2, ey1, ey2]
    simp [abs_of_nonneg hw, abs_of_nonneg hh, Prod.ext_iff]
    constructor <;> ring
  · intro s t hts
    have hts' : polygonPathLengths t = polygonPathLengths s := hts
    show addPath (addPath (0, 0) (polygonPathLengths s)) (polygonPathLengths t) =
      (2 * (polygonPathLengths s).1, 2 * (polygonPathLengths s).2)
    rw [hts']
    simp [addPath, Prod.ext_iff]
    constructor <;> ring
  · intro gs
    rfl

/-- C6 witness: the rectangle clause at the concrete rectangle of the repo
test (width 1, height 2) and the doubling clause at a pair of identical
rings. -/
theorem c6_path_length_decomposition_witness :
    get_xy_path_lengths (Geometry.polygon (rectRing 0 0 1 2)) = (2 * 1, 2 * 2) ∧
    get_xy_path_lengths (Geometry.multiPolygon [rectRing 0 0 1 2, rectRing 0 0 1 2]) =
      (2 * (get_xy_path_lengths (Geometry.polygon (rectRing 0 0 1 2))).1,
       2 * (get_xy_path_lengths (Geometry.polygon (rectRing 0 0 1 2))).2) :=
  ⟨c6_path_length_decomposition.1 0 0 1 2 (by norm_num) (by norm_num),
   c6_path_length_decomposition.2.1 _ _ rfl⟩

theorem getLast_eq_getD (l : List ℚ) (h : l ≠ []) :
    l.getLast h = l.getD (l.length - 1) 0 := by
  have hb : l.length - 1 < l.length := Nat.sub_lt (List.length_pos.mpr h) Nat.one_pos
  rw [List.getLast_eq_get, List.getD_eq_get?, List.get?_eq_get hb]
  rfl

/-- C7 counterexample: the claim states the per-point MU delta array has
length n for every beam with n control points.  A beam with zero control
points refutes it: `np.diff` of the empty cumulative-MU array is empty and
the appended `[0]` makes `cp_mu = [0]`, of length 1 ≠ 0. -/
theorem c7_cp_mu_empty_counterexample :
    beamC7.control_point.length = 0 ∧
    beamC7.cp_mu = [0] ∧
    beamC7.cp_mu.length ≠ beamC7.control_point.length := by
  refine ⟨rfl, ?_, ?_⟩
  · show npDiff (Beam.cum_mu beamC7) ++ [0] = [0]
    rfl
  · show (npDiff (Beam.cum_mu beamC7) ++ [0]).length ≠ 0
    simp [beamC7, Beam.cum_mu, npDiff]

/-- C7 amended: for every beam with at least one control point, the per-point
MU delta array has length n, its entry i equals
`cumulative_mu[i+1] - cumulative_mu[i]` for i < n-1 (with
`cumulative_mu[i] = control_point[i].cum_mu * meter_set`), its last entry is
0, and its sum telescopes to the final minus the initial cumulative MU.  (A
beam with zero control points instead yields the single-element array [0].) -/
theorem c7_cp_mu_amended (b : Beam) (hne : b.control_point ≠ []) :
    b.cp_mu.length = b.control_point.length ∧
    (∀ (i : ℕ) (hi : i < b.control_point.length),
      b.cum_mu.getD i 0 = (b.control_point.get ⟨i, hi⟩).cum_mu * b.meter_set) ∧
    (∀ i : ℕ, i + 1 < b.control_point.length →
      b.cp_mu.getD i 0 = b.cum_mu.getD (i + 1) 0 - b.cum_mu.getD i 0) ∧
    b.cp_mu.getD (b.control_point.length - 1) 0 = 0 ∧
    b.cp_mu.sum = b.cum_mu.getD (b.control_point.length - 1) 0 - b.cum_mu.getD 0 0 := by
  have hcum_len : b.cum_mu.length = b.control_point.length := by
    rw [Beam.cum_mu, List.length_map]
  have hcum_ne : b.cum_mu ≠ [] := by
    intro h0
    exact hne (List.length_eq_zero.mp (by rw [← hcum_len, h0]; rfl))
  refine ⟨cp_mu_length b hne, ?_, ?_, ?_, ?_⟩
  · intro i hi
    rw [Beam.cum_mu, List.getD_eq_get?, List.get?_map, List.get?_eq_get hi]
    rfl
  · intro i hi
    have hiD : i < (npDiff b.cum_mu).length := by
      rw [npDiff_length, hcum_len]
      omega
    rw [Beam.cp_mu, List.getD_eq_get?, List.get?_eq_getElem?, List.getElem?_append,
      if_pos hiD, ← List.get?_eq_getElem?,
      npDiff_get? b.cum_mu i (by rw [hcum_len]; exact hi)]
    rfl
  · have hlen : (npDiff b.cum_mu).length = b.control_point.length - 1 := by
      rw [npDiff_length, hcum_len]
    rw [Beam.cp_mu, List.getD_eq_get?, ← hlen, List.get?_concat_length]
    rfl
  · obtain ⟨a, rest, hcons⟩ : ∃ a rest, b.cum_mu = a :: rest := by
      cases hcm : b.cum_mu with
      | nil => exact absurd hcm hcum_ne
      | cons a rest => exact ⟨a, rest, rfl⟩
    rw [Beam.cp_mu, List.sum_append, hcons, npDiff_sum]
    rw [getLast_eq_getD (a :: rest) (List.cons_ne_nil a rest)]
    have hlen2 : (a :: rest).length = b.control_point.length := by
      rw [← hcons, hcum_len]
    rw [hlen2]
    simp [List.getD]

/-- C7 witness: the amended statement applied to a concrete three-point
beam (cumulative MU [0, 2, 8], deltas [2, 6, 0]). -/
theorem c7_cp_mu_amended_witness :
    beamC7w.cp_mu.length = beamC7w.control_point.length ∧
    (∀ (i : ℕ) (hi : i < beamC7w.control_point.length),
      beamC7w.cum_mu.getD i 0 = (beamC7w.control_point.get ⟨i, hi⟩).cum_mu * beamC7w.meter_set) ∧
    (∀ i : ℕ, i + 1 < beamC7w.control_point.length →
      beamC7w.cp_mu.getD i 0 = beamC7w.cum_mu.getD (i + 1) 0 - beamC7w.cum_mu.getD i 0) ∧
    beamC7w.cp_mu.getD (beamC7w.control_point.length - 1) 0 = 0 ∧
    beamC7w.cp_mu.sum =
      beamC7w.cum_mu.getD (beamC7w.control_point.length - 1) 0 - beamC7w.cum_mu.getD 0 0 :=
  c7_cp_mu_amended beamC7w (by simp [beamC7w])

/-- C9: derived jaw records always satisfy x_min ≤ x_max and y_min ≤ y_max,
also when the recorded asymmetric pair is in descending order (the code
takes min and max of the pair); an axis without a recorded pair defaults to
[-max_field_size/2, +max_field_size/2] (for a nonnegative configured field
size), and the default maximum field size is 400 per axis. -/
theorem c9_jaws_invariant :
    (∀ (opts : Options) (cp : ControlPoint),
      (cp.jaws opts).x_min ≤ (cp.jaws opts).x_max ∧
      (cp.jaws opts).y_min ≤ (cp.jaws opts).y_max) ∧
    (∀ (opts : Options) (cp : ControlPoint) (a b : ℚ), cp.asymx = some (a, b) →
      (cp.jaws opts).x_min = min a b ∧ (cp.jaws opts).x_max = max a b) ∧
    (∀ (opts : Options) (cp : ControlPoint) (a b : ℚ), cp.asymy = some (a, b) →
      (cp.jaws opts).y_min = min a b ∧ (cp.jaws opts).y_max = max a b) ∧
    (∀ (opts : Options) (cp : ControlPoint), cp.asymx = none →
      0 ≤ opts.max_field_size_x →
      (cp.jaws opts).x_min = -(opts.max_field_size_x / 2) ∧
      (cp.jaws opts).x_max = opts.max_field_size_x / 2) ∧
    (∀ (opts : Options) (cp : ControlPoint), cp.asymy = none →
      0 ≤ opts.max_field_size_y →
      (cp.jaws opts).y_min = -(opts.max_field_size_y / 2) ∧
      (cp.jaws opts).y_max = opts.max_field_size_y / 2) ∧
    DEFAULT_OPTIONS.max_field_size_x = 400 ∧
    DEFAULT_OPTIONS.max_field_size_y = 400 := by
  refine ⟨?_, ?_, ?_, ?_, ?_, rfl, rfl⟩
  · intro opts cp
    exact ⟨min_le_max, min_le_max⟩
  · intro opts cp a b h
    simp [ControlPoint.jaws, jawAxis, h]
  · intro opts cp a b h
    simp [ControlPoint.jaws, jawAxis, h]
  · intro opts cp h hpos
    have hle : -(opts.max_field_size_x / 2) ≤ opts.max_field_size_x / 2 := by
      have : 0 ≤ opts.max_field_size_x / 2 := by positivity
      linarith
    simp [ControlPoint.jaws, jawAxis, h, min_eq_left hle, max_eq_right hle]
  · intro opts cp h hpos
    have hle : -(opts.max_field_size_y / 2) ≤ opts.max_field_size_y / 2 := by
      have : 0 ≤ opts.max_field_size_y / 2 := by positivity
      linarith
    simp [ControlPoint.jaws, jawAxis, h, min_eq_left hle, max_eq_right hle]

/-- C9 witness: the invariant, the descending-pair clause and the
default-axis clause applied at a control point whose x pair is recorded in
descending order and whose y pair is absent. -/
theorem c9_jaws_invariant_witness :
    ((cpC9.jaws DEFAULT_OPTIONS).x_min ≤ (cpC9.jaws DEFAULT_OPTIONS).x_max ∧
     (cpC9.jaws DEFAULT_OPTIONS).y_min ≤ (cpC9.jaws DEFAULT_OPTIONS).y_max) ∧
    ((cpC9.jaws DEFAULT_OPTIONS).x_min = min 60 (-60) ∧
     (cpC9.jaws DEFAULT_OPTIONS).x_max = max 60 (-60)) ∧
    ((cpC9.jaws DEFAULT_OPTIONS).y_min = -(DEFAULT_OPTIONS.max_field_size_y / 2) ∧
     (cpC9.jaws DEFAULT_OPTIONS).y_max = DEFAULT_OPTIONS.max_field_size_y / 2) :=
  ⟨c9_jaws_invariant.1 DEFAULT_OPTIONS cpC9,
   c9_jaws_invariant.2.1 DEFAULT_OPTIONS cpC9 60 (-60) rfl,
   c9_jaws_invariant.2.2.2.2.1 DEFAULT_OPTIONS cpC9 rfl
     (by norm_num [DEFAULT_OPTIONS])⟩

theorem tolist_some {y : YoungeResult} {l : List (Option ℚ)}
    (h : y.tolist = some l) : y = YoungeResult.scores l := by
  cases y with
  | scalarZero => exact absurd h (by simp [YoungeResult.tolist])
  | scores m =>
      have hm : m = l := by simpa [YoungeResult.tolist] using h
      rw [hm]

theorem younge_scores_inv (b : Beam) (l : List (Option ℚ))
    (h : b.younge_complexity_scores = YoungeResult.scores l) :
    0 < b.meter_set ∧
      l = List.zipWith
        (fun pp ma =>
          pointScore b.options.complexity_weight_x b.options.complexity_weight_y
            b.meter_set pp.1 pp.2 ma.1 ma.2)
        (b.perimeter_x.zip b.perimeter_y) (b.cp_mu.zip b.area) := by
  rw [Beam.younge_complexity_scores] at h
  by_cases hms : 0 < b.meter_set
  · rw [if_pos hms] at h
    injection h with h1
    exact ⟨hms, h1.symm⟩
  · rw [if_neg hms] at h
    cases h

theorem scores_list_length (b : Beam) (l : List (Option ℚ))
    (h : b.younge_complexity_scores = YoungeResult.scores l) :
    l.length = b.control_point.length := by
  obtain ⟨hms, hl⟩ := younge_scores_inv b l h
  rw [hl, List.length_zipWith, List.length_zip, List.length_zip]
  simp only [Beam.perimeter_x, Beam.perimeter_y, Beam.area, List.length_map]
  by_cases hn : b.control_point = []
  · simp [hn, Beam.cp_mu, Beam.cum_mu, npDiff]
  · rw [cp_mu_length b hn]
    simp

theorem broadcast_cp_mu (b : Beam) :
    broadcast b.control_point.length b.cp_mu =
      if b.control_point.length = 0 then [] else b.cp_mu := by
  by_cases hn : b.control_point = []
  · rw [if_pos (by rw [hn]; rfl)]
    rw [show b.cp_mu = [0] by rw [Beam.cp_mu, Beam.cum_mu, hn]; rfl]
    rw [hn]
    rfl
  · rw [if_neg (fun h0 => hn (List.length_eq_zero.mp h0))]
    exact broadcast_eq_self (cp_mu_length b hn)

theorem broadcast_cp_mu_length (b : Beam) :
    (broadcast b.control_point.length b.cp_mu).length = b.control_point.length := by
  rw [broadcast_cp_mu]
  by_cases hn : b.control_point.length = 0
  · rw [if_pos hn, hn]
    rfl
  · rw [if_neg hn]
    exact cp_mu_length b (fun h0 => hn (by rw [h0]; rfl))

theorem broadcast_cp_mu_filter (b : Beam) :
    (broadcast b.control_point.length b.cp_mu).filter (fun v => decide (v ≠ 0)) =
      b.cp_mu.filter (fun v => decide (v ≠ 0)) := by
  rw [broadcast_cp_mu]
  by_cases hn : b.control_point = []
  · rw [if_pos (by rw [hn]; rfl)]
    rw [show b.cp_mu = [0] by rw [Beam.cp_mu, Beam.cum_mu, hn]; rfl]
    simp
  · rw [if_neg (fun h0 => hn (List.length_eq_zero.mp h0))]

theorem keepNonZero_length {α : Type} :
    ∀ (mus : List ℚ) (xs : List α), xs.length = mus.length →
      (keepNonZero xs mus).length = (mus.filter (fun v => decide (v ≠ 0))).length
  | [], xs, h => by
      have hx : xs = [] := List.length_eq_zero.mp (by simpa using h)
      subst hx
      rfl
  | m :: ms, xs, h => by
      cases xs with
      | nil => simp at h
      | cons x t =>
        have hlen : t.length = ms.length := by simpa using h
        have ih := keepNonZero_length ms t hlen
        by_cases hm : m = 0
        · simpa [keepNonZero, List.filter_cons, hm] using ih
        · simpa [keepNonZero, List.filter_cons, hm] using ih

theorem summaryPre_inv (b : Beam) (s : Summary) (hs : b.summaryPre = some s) :
    ∃ cmp, b.younge_complexity_scores.tolist = some cmp ∧
      s = { cp := broadcast b.control_point.length (List.range' 1 b.control_point.length)
            cum_mu_frac :=
              broadcast b.control_point.length (b.control_point.map ControlPoint.cum_mu)
            cum_mu := broadcast b.control_point.length b.cum_mu
            cp_mu := broadcast b.control_point.length b.cp_mu
            gantry := broadcast b.control_point.length b.gantry_angle
            collimator := broadcast b.control_point.length b.collimator_angle
            couch := broadcast b.control_point.length b.couch_angle
            jaw_x1 := broadcast b.control_point.length (b.jaws.map Jaws.x_min)
            jaw_x2 := broadcast b.control_point.length (b.jaws.map Jaws.x_max)
            jaw_y1 := broadcast b.control_point.length (b.jaws.map Jaws.y_min)
            jaw_y2 := broadcast b.control_point.length (b.jaws.map Jaws.y_max)
            area := broadcast b.control_point.length b.area
            x_perim := broadcast b.control_point.length b.perimeter_x
            y_perim := broadcast b.control_point.length b.perimeter_y
            perim := broadcast b.control_point.length b.perimeter
            cmp_score := broadcast b.control_point.length cmp } := by
  unfold Beam.summaryPre at hs
  cases htl : b.younge_complexity_scores.tolist with
  | none =>
      rw [htl] at hs
      simp at hs
  | some cmp =>
      rw [htl] at hs
      simp only [Option.map_some', Option.some.injEq] at hs
      exact ⟨cmp, rfl, hs.symm⟩

/-- C8: for every beam whose summary is constructed (positive meter set,
hence the score array exists) with `ignore_zero_mu_cp` set, every summary
entry is restricted to exactly the indices whose per-point MU delta is
nonzero (entries whose length equals the control-point count, which is all
of them except possibly the angle lists, are filtered positionally by the
nonzero predicate on the MU delta array), and the count of surviving
control points equals the count of nonzero MU deltas of the unfiltered
beam. -/
theorem c8_zero_mu_filter (b : Beam) (s : Summary) (hs : b.summaryPre = some s) :
    ∃ t, b.summaryFinal true = some t ∧
      s.cp_mu = broadcast b.control_point.length b.cp_mu ∧
      t.cp = keepNonZero s.cp s.cp_mu ∧
      t.cum_mu_frac = keepNonZero s.cum_mu_frac s.cp_mu ∧
      t.cum_mu = keepNonZero s.cum_mu s.cp_mu ∧
      t.cp_mu = keepNonZero s.cp_mu s.cp_mu ∧
      t.jaw_x1 = keepNonZero s.jaw_x1 s.cp_mu ∧
      t.jaw_x2 = keepNonZero s.jaw_x2 s.cp_mu ∧
      t.jaw_y1 = keepNonZero s.jaw_y1 s.cp_mu ∧
      t.jaw_y2 = keepNonZero s.jaw_y2 s.cp_mu ∧
      t.area = keepNonZero s.area s.cp_mu ∧
      t.x_perim = keepNonZero s.x_perim s.cp_mu ∧
      t.y_perim = keepNonZero s.y_perim s.cp_mu ∧
      t.perim = keepNonZero s.perim s.cp_mu ∧
      t.cmp_score = keepNonZero s.cmp_score s.cp_mu ∧
      (s.gantry.length = s.cp_mu.length → t.gantry = keepNonZero s.gantry s.cp_mu) ∧
      (s.collimator.length = s.cp_mu.length →
        t.collimator = keepNonZero s.collimator s.cp_mu) ∧
      (s.couch.length = s.cp_mu.length → t.couch = keepNonZero s.couch s.cp_mu) ∧
      t.cp.length = (b.cp_mu.filter (fun v => decide (v ≠ 0))).length := by
  obtain ⟨cmp, htl, hsdef⟩ := summaryPre_inv b s hs
  have hcmp_len : cmp.length = b.control_point.length :=
    scores_list_length b cmp (tolist_some htl)
  have hmu : s.cp_mu = broadcast b.control_point.length b.cp_mu := by rw [hsdef]
  have hmu_len : s.cp_mu.length = b.control_point.length := by
    rw [hmu, broadcast_cp_mu_length]
  have hfin : b.summaryFinal true = some (filterSummary s) := by
    rw [Beam.summaryFinal, hs]
    rfl
  have hcp : s.cp = List.range' 1 b.control_point.length := by
    rw [hsdef]
    exact broadcast_eq_self (by simp)
  have hcp_len : s.cp.length = s.cp_mu.length := by
    rw [hcp, hmu_len]
    simp
  have hfrac : s.cum_mu_frac = b.control_point.map ControlPoint.cum_mu := by
    rw [hsdef]
    exact broadcast_eq_self (by simp)
  have hfrac_len : s.cum_mu_frac.length = s.cp_mu.length := by
    rw [hfrac, hmu_len]
    simp
  have hcum : s.cum_mu = b.cum_mu := by
    rw [hsdef]
    exact broadcast_eq_self (by simp [Beam.cum_mu])
  have hcum_len : s.cum_mu.length = s.cp_mu.length := by
    rw [hcum, hmu_len]
    simp [Beam.cum_mu]
  have hjx1 : s.jaw_x1 = b.jaws.map Jaws.x_min := by
    rw [hsdef]
    exact broadcast_eq_self (by simp [Beam.jaws])
  have hjx1_len : s.jaw_x1.length = s.cp_mu.length := by
    rw [hjx1, hmu_len]
    simp [Beam.jaws]
  have hjx2 : s.jaw_x2 = b.jaws.map Jaws.x_max := by
    rw [hsdef]
    exact broadcast_eq_self (by simp [Beam.jaws])
  have hjx2_len : s.jaw_x2.length = s.cp_mu.length := by
    rw [hjx2, hmu_len]
    simp [Beam.jaws]
  have hjy1 : s.jaw_y1 = b.jaws.map Jaws.y_min := by
    rw [hsdef]
    exact broadcast_eq_self (by simp [Beam.jaws])
  have hjy1_len : s.jaw_y1.length = s.cp_mu.length := by
    rw [hjy1, hmu_len]
    simp [Beam.jaws]
  have hjy2 : s.jaw_y2 = b.jaws.map Jaws.y_max := by
    rw [hsdef]
    exact broadcast_eq_self (by simp [Beam.jaws])
  have hjy2_len : s.jaw_y2.length = s.cp_mu.length := by
    rw [hjy2, hmu_len]
    simp [Beam.jaws]
  have harea : s.area = b.area := by
    rw [hsdef]
    exact broadcast_eq_self (by simp [Beam.area])
  have harea_len : s.area.length = s.cp_mu.length := by
    rw [harea, hmu_len]
    simp [Beam.area]
  have hxp : s.x_perim = b.perimeter_x := by
    rw [hsdef]
    exact broadcast_eq_self (by simp [Beam.perimeter_x])
  have hxp_len : s.x_perim.length = s.cp_mu.length := by
    rw [hxp, hmu_len]
    simp [Beam.perimeter_x]
  have hyp : s.y_perim = b.perimeter_y := by
    rw [hsdef]
    exact broadcast_eq_self (by simp [Beam.perimeter_y])
  have hyp_len : s.y_perim.length = s.cp_mu.length := by
    rw [hyp, hmu_len]
    simp [Beam.perimeter_y]
  have hperim : s.perim = b.perimeter := by
    rw [hsdef]
    exact broadcast_eq_self (by simp [Beam.perimeter])
  have hperim_len : s.perim.length = s.cp_mu.length := by
    rw [hperim, hmu_len]
    simp [Beam.perimeter]
  have hcmpeq : s.cmp_score = cmp := by
    rw [hsdef]
    exact broadcast_eq_self hcmp_len
  have hcmp2_len : s.cmp_score.length = s.cp_mu.length := by
    rw [hcmpeq, hmu_len]
    exact hcmp_len
  have hcount : (keepNonZero s.cp s.cp_mu).length =
      (b.cp_mu.filter (fun v => decide (v ≠ 0))).length := by
    rw [keepNonZero_length s.cp_mu s.cp hcp_len, hmu, broadcast_cp_mu_filter]
  exact ⟨filterSummary s, hfin, hmu,
    selectIdx_nonZero s.cp_mu s.cp hcp_len,
    selectIdx_nonZero s.cp_mu s.cum_mu_frac hfrac_len,
    selectIdx_nonZero s.cp_mu s.cum_mu hcum_len,
    selectIdx_nonZero s.cp_mu s.cp_mu rfl,
    selectIdx_nonZero s.cp_mu s.jaw_x1 hjx1_len,
    selectIdx_nonZero s.cp_mu s.jaw_x2 hjx2_len,
    selectIdx_nonZero s.cp_mu s.jaw_y1 hjy1_len,
    selectIdx_nonZero s.cp_mu s.jaw_y2 hjy2_len,
    selectIdx_nonZero s.cp_mu s.area harea_len,
    selectIdx_nonZero s.cp_mu s.x_perim hxp_len,
    selectIdx_nonZero s.cp_mu s.y_perim hyp_len,
    selectIdx_nonZero s.cp_mu s.perim hperim_len,
    selectIdx_nonZero s.cp_mu s.cmp_score hcmp2_len,
    fun hg => selectIdx_nonZero s.cp_mu s.gantry hg,
    fun hc => selectIdx_nonZero s.cp_mu s.collimator hc,
    fun hc => selectIdx_nonZero s.cp_mu s.couch hc,
    by rw [show (filterSummary s).cp = keepNonZero s.cp s.cp_mu from
        selectIdx_nonZero s.cp_mu s.cp hcp_len]
       exact hcount⟩

/-- C10: in the summary construction, an entry of length exactly 1 is
replaced by its single value repeated once per control point
(`entry * len(summary["cp"])`); entries of any other length, including
empty ones, are left unchanged; and the broadcast is part of `summaryPre`,
to which the zero-MU filter is applied afterwards, as the gantry entry
witnesses. -/
theorem c10_length1_broadcast :
    (∀ (α : Type) (v : α) (n : ℕ), broadcast n [v] = List.replicate n v) ∧
    (∀ (α : Type) (xs : List α) (n : ℕ), xs.length ≠ 1 → broadcast n xs = xs) ∧
    (∀ (b : Beam) (s : Summary), b.summaryPre = some s →
      s.gantry = broadcast b.control_point.length b.gantry_angle ∧
      b.summaryFinal true = b.summaryPre.map filterSummary) := by
  refine ⟨?_, ?_, ?_⟩
  · intro α v n
    unfold broadcast
    rw [if_pos (by simp : ([v] : List α).length = 1)]
    exact listMul_singleton v n
  · intro α xs n h
    unfold broadcast
    rw [if_neg h]
  · intro b s hs
    obtain ⟨cmp, htl, hsdef⟩ := summaryPre_inv b s hs
    exact ⟨by rw [hsdef], rfl⟩

theorem beamCS_summaryPre : beamCS.summaryPre = some summaryCS := by
  norm_num [Beam.summaryPre, Beam.younge_complexity_scores, YoungeResult.tolist,
    beamCS, cpCSa, cpCSb, mkCP, Beam.cum_mu, Beam.cp_mu, npDiff, Beam.perimeter_x,
    Beam.perimeter_y, Beam.perimeter, Beam.area, Beam.jaws, ControlPoint.jaws,
    jawAxis, Beam.gantry_angle, Beam.collimator_angle, Beam.couch_angle, pointScore,
    divOpt, broadcast, listMul, DEFAULT_OPTIONS, summaryCS, List.range',
    min_def, max_def, Summary.mk.injEq, List.filterMap_cons]

/-- C8 witness: the filter theorem applied to a concrete two-point beam
whose second control point has MU delta 0. -/
theorem c8_zero_mu_filter_witness :
    ∃ t, beamCS.summaryFinal true = some t ∧
      summaryCS.cp_mu = broadcast beamCS.control_point.length beamCS.cp_mu ∧
      t.cp = keepNonZero summaryCS.cp summaryCS.cp_mu ∧
      t.cum_mu_frac = keepNonZero summaryCS.cum_mu_frac summaryCS.cp_mu ∧
      t.cum_mu = keepNonZero summaryCS.cum_mu summaryCS.cp_mu ∧
      t.cp_mu = keepNonZero summaryCS.cp_mu summaryCS.cp_mu ∧
      t.jaw_x1 = keepNonZero summaryCS.jaw_x1 summaryCS.cp_mu ∧
      t.jaw_x2 = keepNonZero summaryCS.jaw_x2 summaryCS.cp_mu ∧
      t.jaw_y1 = keepNonZero summaryCS.jaw_y1 summaryCS.cp_mu ∧
      t.jaw_y2 = keepNonZero summaryCS.jaw_y2 summaryCS.cp_mu ∧
      t.area = keepNonZero summaryCS.area summaryCS.cp_mu ∧
      t.x_perim = keepNonZero summaryCS.x_perim summaryCS.cp_mu ∧
      t.y_perim = keepNonZero summaryCS.y_perim summaryCS.cp_mu ∧
      t.perim = keepNonZero summaryCS.perim summaryCS.cp_mu ∧
      t.cmp_score = keepNonZero summaryCS.cmp_score summaryCS.cp_mu ∧
      (summaryCS.gantry.length = summaryCS.cp_mu.length →
        t.gantry = keepNonZero summaryCS.gantry summaryCS.cp_mu) ∧
      (summaryCS.collimator.length = summaryCS.cp_mu.length →
        t.collimator = keepNonZero summaryCS.collimator summaryCS.cp_mu) ∧
      (summaryCS.couch.length = summaryCS.cp_mu.length →
        t.couch = keepNonZero summaryCS.couch summaryCS.cp_mu) ∧
      t.cp.length = (beamCS.cp_mu.filter (fun v => decide (v ≠ 0))).length :=
  c8_zero_mu_filter beamCS summaryCS beamCS_summaryPre

/-- C10 witness: the broadcast clauses at concrete lists, and the
summary-ordering clause at the concrete beam whose single gantry tag is
repeated once per control point. -/
theorem c10_length1_broadcast_witness :
    broadcast 3 [(5 : ℚ)] = List.replicate 3 5 ∧
    broadcast 3 ([] : List ℚ) = [] ∧
    (summaryCS.gantry = broadcast beamCS.control_point.length beamCS.gantry_angle ∧
      beamCS.summaryFinal true = beamCS.summaryPre.map filterSummary) :=
  ⟨c10_length1_broadcast.1 ℚ 5 3,
   c10_length1_broadcast.2.1 ℚ [] 3 (by simp),
   c10_length1_broadcast.2.2 beamCS summaryCS beamCS_summaryPre⟩
